import Mathlib

/-!
Verification of the queue/quality/cancellation logic of the YouTube
downloader GUI (`youtube_downloader.py`).

The embedding is shallow: each Python function that the claims depend on is
translated into an executable Lean definition over explicit data.  Python
strings become `String`, dictionaries become structures, the mutable queue
becomes a `List Item` that is threaded explicitly, and the background
worker loop (`download_worker`) becomes a small-step transition relation on
an explicit worker state.
-/

namespace YTD

/-! ### Python string primitives

Python's `in` (substring test), `str.split(sep)`, `str.startswith`,
`str.replace` and `str.lower` are modelled character-list-wise so that every
definition is kernel-computable. -/

/-- Python `pat in s` (substring containment), on character lists. -/
def containsSub (s pat : String) : Bool :=
  s.data.tails.any (fun t => pat.data.isPrefixOf t)

/-- Python `s.lower()` (ASCII case folding is all the source needs). -/
def lowerStr (s : String) : String :=
  ⟨s.data.map Char.toLower⟩

/-- Python `s.startswith(pre)`. -/
def startsWithStr (s pre : String) : Bool :=
  pre.data.isPrefixOf s.data

/-- Python `s.split(c)` for a one-character separator: splits on every
occurrence, keeping empty pieces (so the result is always non-empty). -/
def pySplitChar (c : Char) : List Char → List (List Char)
  | [] => [[]]
  | x :: rest =>
    if x = c then [] :: pySplitChar c rest
    else
      match pySplitChar c rest with
      | [] => [[x]]
      | g :: gs => (x :: g) :: gs

/-- Python `s.split(c)[i]` with a default for an out-of-range index. -/
def pySplitIndex (s : String) (c : Char) (i : Nat) : String :=
  ⟨(pySplitChar c s.data).getD i []⟩

/-- Python `s.replace(pat, rep)` (replaces every non-overlapping occurrence,
scanning left to right).  The empty-pattern case returns `s` unchanged; the
source only ever replaces the non-empty literal `"Audio-"`. -/
def pyReplaceList (pat rep : List Char) : List Char → List Char
  | [] => []
  | x :: rest =>
    if h : pat ≠ [] ∧ pat.isPrefixOf (x :: rest) then
      rep ++ pyReplaceList pat rep ((x :: rest).drop pat.length)
    else
      x :: pyReplaceList pat rep rest
termination_by s => s.length
decreasing_by
  · have hlen : 1 ≤ pat.length := by
      cases pat with
      | nil => exact absurd rfl h.1
      | cons a l => exact Nat.succ_le_succ (Nat.zero_le _)
    simp only [List.length_drop, List.length_cons]
    omega
  · simp [Nat.lt_succ_self]

/-- Python `s.replace(pat, rep)` on strings. -/
def pyReplace (s pat rep : String) : String :=
  ⟨pyReplaceList pat.data rep.data s.data⟩

/-! ### Data model

`download_queue` holds one dict per requested video; the fields the queue
logic touches are `id` (may be absent), `url`, `title`, `quality` (a tier
string such as `"1080p"` or an audio tag such as `"Audio-default"`) and
`status`. -/

/-- The per-item status values used by the GUI (`update_video_status`). -/
inductive Status where
  | Pending
  | Downloading
  | Done
  | Failed
  | Skipped
  | QualityBlocked
  | AgeRestricted
deriving DecidableEq, Repr

/-- One entry of `self.download_queue`. -/
structure Item where
  id : Option String
  url : String
  title : String
  quality : String
  status : Status
deriving DecidableEq, Repr

/-! ### Quality downgrade hierarchy
(`auto_retry_with_different_quality`, lines 2891-2933) -/

/-- The `audio_fallback` dict: only a `best` profile has a fallback. -/
def audio_fallback (fmt : String) : Option String :=
  if fmt = "best" then some "default" else none

/-- The `quality_fallback` dict of `auto_retry_with_different_quality`. -/
def quality_fallback (q : String) : Option String :=
  if q = "Best" then some "1080p"
  else if q = "1080p" then some "720p"
  else if q = "720p" then some "480p"
  else if q = "480p" then some "360p"
  else if q = "360p" then some "Audio-default"
  else none

/-- `auto_retry_with_different_quality` without its side effects: given the
item's current quality it yields the downgraded quality (the function
returning `True` after mutating `video_info['quality']`), or `none` when
there is no further fallback (the function returning `False`). -/
def auto_retry_with_different_quality (current_quality : String) : Option String :=
  if startsWithStr current_quality "Audio-" then
    let audio_format := pySplitIndex current_quality '-' 1
    match audio_fallback audio_format with
    | some f => some ("Audio-" ++ f)
    | none => none
  else
    quality_fallback current_quality

/-- Rank of a quality in the downgrade hierarchy: every quality on which a
downgrade step is defined sits strictly above its fallback.  Qualities
outside the hierarchy (which `auto_retry_with_different_quality` never
produces and from which at most one audio step is possible) sit at 1. -/
def qualityRank (q : String) : Nat :=
  if q = "Best" then 6
  else if q = "1080p" then 5
  else if q = "720p" then 4
  else if q = "480p" then 3
  else if q = "360p" then 2
  else if q = "Audio-default" then 0
  else 1

lemma auto_retry_rank_lt {q q' : String}
    (h : auto_retry_with_different_quality q = some q') :
    qualityRank q' < qualityRank q := by
  unfold auto_retry_with_different_quality at h
  by_cases hA : startsWithStr q "Audio-"
  · simp only [hA, if_true] at h
    rcases hf : audio_fallback (pySplitIndex q '-' 1) with _ | f
    · rw [hf] at h; exact absurd h (by simp)
    · rw [hf] at h
      simp only [Option.some.injEq] at h
      have hfbest : pySplitIndex q '-' 1 = "best" := by
        unfold audio_fallback at hf
        by_cases hb : pySplitIndex q '-' 1 = "best"
        · exact hb
        · rw [if_neg hb] at hf; exact absurd hf (by simp)
      have hfd : f = "default" := by
        rw [hfbest] at hf
        simpa [audio_fallback] using hf.symm
      subst hfd
      have hq' : q' = "Audio-default" := h.symm
      subst hq'
      have hqne : q ≠ "Audio-default" := by
        intro he; subst he
        exact absurd hfbest (by decide)
      have h1 : qualityRank q = 1 := by
        have hB : q ≠ "Best" := by intro he; subst he; exact absurd hA (by decide)
        have h2 : q ≠ "1080p" := by intro he; subst he; exact absurd hA (by decide)
        have h3 : q ≠ "720p" := by intro he; subst he; exact absurd hA (by decide)
        have h4 : q ≠ "480p" := by intro he; subst he; exact absurd hA (by decide)
        have h5 : q ≠ "360p" := by intro he; subst he; exact absurd hA (by decide)
        simp [qualityRank, hB, h2, h3, h4, h5, hqne]
      rw [h1]
      decide
  · simp only [hA, if_false] at h
    unfold quality_fallback at h
    by_cases h1 : q = "Best"
    · subst h1; simp at h; subst h; decide
    · rw [if_neg h1] at h
      by_cases h2 : q = "1080p"
      · subst h2; simp at h; subst h; decide
      · rw [if_neg h2] at h
        by_cases h3 : q = "720p"
        · subst h3; simp at h; subst h; decide
        · rw [if_neg h3] at h
          by_cases h4 : q = "480p"
          · subst h4; simp at h; subst h; decide
          · rw [if_neg h4] at h
            by_cases h5 : q = "360p"
            · subst h5; simp at h; subst h; decide
            · rw [if_neg h5] at h
              exact absurd h (by simp)

/-- **C6.** The downgrade hierarchy: video tiers step down exactly one level
at a time along Best → 1080p → 720p → 480p → 360p → Audio-default; an audio
`best` profile falls back once to `default`, which has no further fallback;
and every successful downgrade strictly decreases the quality rank, so
repeated application terminates at the terminal fallback, where downgrade
returns none. -/
theorem downgrade_hierarchy_monotone :
    (auto_retry_with_different_quality "Best" = some "1080p" ∧
     auto_retry_with_different_quality "1080p" = some "720p" ∧
     auto_retry_with_different_quality "720p" = some "480p" ∧
     auto_retry_with_different_quality "480p" = some "360p" ∧
     auto_retry_with_different_quality "360p" = some "Audio-default" ∧
     auto_retry_with_different_quality "Audio-best" = some "Audio-default" ∧
     auto_retry_with_different_quality "Audio-default" = none) ∧
    (∀ q q', auto_retry_with_different_quality q = some q' →
      qualityRank q' < qualityRank q) := by
  constructor
  · exact ⟨by decide, by decide, by decide, by decide, by decide, by decide, by decide⟩
  · intro q q' h
    exact auto_retry_rank_lt h

/-- Witness for C6: the downgrade step from `Best` strictly decreases the
rank, at the concrete input `"Best"`. -/
theorem downgrade_hierarchy_monotone_witness :
    auto_retry_with_different_quality "Best" = some "1080p" ∧
    qualityRank "1080p" < qualityRank "Best" :=
  ⟨by decide, downgrade_hierarchy_monotone.2 "Best" "1080p" (by decide)⟩

/-! ### Error classification (`classify_download_error`, lines 2858-2889)

The Python function inspects the lowercased error message, and on an HTTP
403 signal calls `auto_retry_with_different_quality`, which mutates the
item's quality; the classification result becomes the item's new status.
The pure model returns the `(status, quality)` pair. -/

/-- The age-restriction phrases matched by `classify_download_error`. -/
def age_phrases : List String :=
  ["age restricted", "age-restricted", "sign in to confirm your age",
   "this video may be inappropriate", "content warning",
   "requires age verification", "age gate"]

/-- The HTTP-403 (access denied) test of `classify_download_error`,
applied to the already-lowercased message. -/
def detects403 (error_lower : String) : Bool :=
  containsSub error_lower "http error 403" || containsSub error_lower "403: forbidden"

/-- `classify_download_error(error_message, video_info)`: returns the status
the worker will set, paired with the (possibly downgraded) quality that
`auto_retry_with_different_quality` leaves on the item. -/
def classify_download_error (error_message : String) (quality : String) :
    Status × String :=
  let error_lower := lowerStr error_message
  if detects403 error_lower then
    match auto_retry_with_different_quality quality with
    | some q' => (Status.Pending, q')
    | none => (Status.QualityBlocked, quality)
  else if age_phrases.any (fun p => containsSub error_lower p) then
    (Status.AgeRestricted, quality)
  else if containsSub error_lower "unavailable" && containsSub error_lower "private" then
    (Status.Failed, quality)
  else if containsSub error_lower "region" &&
          (containsSub error_lower "blocked" || containsSub error_lower "restricted") then
    (Status.Failed, quality)
  else
    (Status.Failed, quality)

/-- Iterated access-denied failure events: each event classifies the error
against the item's current quality; while the classification is `Pending`
(a downgrade happened) the item will be fetched again and may fail again.
`run403 e n q` is the `(status, quality)` after at most `n` such events. -/
def run403 (e : String) : Nat → String → Status × String
  | 0, q => (Status.Pending, q)
  | n + 1, q =>
    let r := classify_download_error e q
    if r.1 = Status.Pending then run403 e n r.2 else r

lemma classify_403_eq {e q : String} (h : detects403 (lowerStr e) = true) :
    classify_download_error e q =
      match auto_retry_with_different_quality q with
      | some q' => (Status.Pending, q')
      | none => (Status.QualityBlocked, q) := by
  unfold classify_download_error
  simp only [h, if_true]

lemma run403_blocked {e : String} (h : detects403 (lowerStr e) = true) :
    ∀ n q, qualityRank q < n → (run403 e n q).1 = Status.QualityBlocked := by
  intro n
  induction n with
  | zero => intro q hq; exact absurd hq (Nat.not_lt_zero _)
  | succ n ih =>
    intro q hq
    show (run403 e (n + 1) q).1 = Status.QualityBlocked
    rw [run403]
    rcases hr : auto_retry_with_different_quality q with _ | q'
    · have : classify_download_error e q = (Status.QualityBlocked, q) := by
        rw [classify_403_eq h, hr]
      simp [this]
    · have hc : classify_download_error e q = (Status.Pending, q') := by
        rw [classify_403_eq h, hr]
      have hlt : qualityRank q' < qualityRank q := auto_retry_rank_lt hr
      simp only [hc, if_pos rfl]
      exact ih q' (by omega)

/-- **C2 (corrected) counterexample.** The claim says a second consecutive
access-denied failure makes the item `QualityBlocked`.  On the code, the
first 403 at `1080p` downgrades to `720p` and resets the item to `Pending`;
the second 403 (now at `720p`) downgrades again to `480p` and again yields
`Pending`, not `QualityBlocked`. -/
theorem second_403_not_blocked_counterexample :
    classify_download_error "HTTP Error 403: Forbidden" "1080p" =
      (Status.Pending, "720p") ∧
    classify_download_error "HTTP Error 403: Forbidden" "720p" =
      (Status.Pending, "480p") ∧
    (classify_download_error "HTTP Error 403: Forbidden" "720p").1 ≠
      Status.QualityBlocked := by
  refine ⟨by decide, by decide, ?_⟩
  decide

/-- **C2 (amended).** Each access-denied (HTTP 403) failure event triggers at
most one automatic downgrade: the item is reset to `Pending` with a strictly
lower-ranked quality when a downgrade exists, and becomes `QualityBlocked`
(with quality unchanged) exactly when the downgrade hierarchy is exhausted.
Consequently no item is retried infinitely: from any starting quality,
within `qualityRank q + 1` successive access-denied failure events the item
is `QualityBlocked`. -/
theorem access_denied_single_downgrade (e q : String)
    (h : detects403 (lowerStr e) = true) :
    ((∃ q', auto_retry_with_different_quality q = some q' ∧
        classify_download_error e q = (Status.Pending, q') ∧
        qualityRank q' < qualityRank q) ∨
      (auto_retry_with_different_quality q = none ∧
        classify_download_error e q = (Status.QualityBlocked, q))) ∧
    (run403 e (qualityRank q + 1) q).1 = Status.QualityBlocked := by
  constructor
  · rcases hr : auto_retry_with_different_quality q with _ | q'
    · exact Or.inr ⟨rfl, by rw [classify_403_eq h, hr]⟩
    · exact Or.inl ⟨q', rfl, by rw [classify_403_eq h, hr], auto_retry_rank_lt hr⟩
  · exact run403_blocked h _ q (Nat.lt_succ_self _)

/-- Witness for C2 (amended): at the concrete error `"HTTP Error 403:
Forbidden"` and quality `"1080p"`, one downgrade to `720p` happens, and six
consecutive 403 events exhaust the hierarchy into `QualityBlocked`. -/
theorem access_denied_single_downgrade_witness :
    detects403 (lowerStr "HTTP Error 403: Forbidden") = true ∧
    (((∃ q', auto_retry_with_different_quality "1080p" = some q' ∧
        classify_download_error "HTTP Error 403: Forbidden" "1080p" =
          (Status.Pending, q') ∧
        qualityRank q' < qualityRank "1080p") ∨
      (auto_retry_with_different_quality "1080p" = none ∧
        classify_download_error "HTTP Error 403: Forbidden" "1080p" =
          (Status.QualityBlocked, "1080p"))) ∧
     (run403 "HTTP Error 403: Forbidden" (qualityRank "1080p" + 1) "1080p").1 =
       Status.QualityBlocked) :=
  ⟨by decide,
   access_denied_single_downgrade "HTTP Error 403: Forbidden" "1080p" (by decide)⟩

/-! ### Enqueue deduplication (`add_videos_to_gui`, lines 2001-2033)

`add_videos_to_gui` builds `existing_ids = {video.get('id') for video in
self.download_queue}` — a set of `Option`al ids, so every id-less item
contributes the single shared key `None` — and keeps exactly the incoming
videos whose (optional) id is not in the set, adding each kept id to the
set; the kept videos are then appended to `download_queue` in order by
`_insert_videos_chunked`.  The item's URL is never consulted. -/

/-- The per-batch filter of `add_videos_to_gui`: `seen` is `existing_ids`. -/
def dedupByIds (seen : List (Option String)) : List Item → List Item
  | [] => []
  | v :: rest =>
    if seen.contains v.id then dedupByIds seen rest
    else v :: dedupByIds (v.id :: seen) rest

/-- `add_videos_to_gui(videos)`: the resulting `download_queue`. -/
def add_videos_to_gui (download_queue : List Item) (videos : List Item) :
    List Item :=
  download_queue ++ dedupByIds (download_queue.map (·.id)) videos

/-- **C4 (corrected) counterexample.** The claim says an id-less item whose
`sourceURL` already exists in the queue is rejected.  On the code, an
id-less item is accepted whenever no `None` key is in the id set, even when
its URL equals the URL of a queued item: queue `[⟨id=v1, url=u1⟩]` plus
batch `[⟨id=absent, url=u1⟩]` yields a queue of length 2, not 1. -/
theorem enqueue_urls_ignored_counterexample :
    (add_videos_to_gui
      [{ id := some "v1", url := "u1", title := "A", quality := "1080p",
         status := Status.Pending }]
      [{ id := none, url := "u1", title := "B", quality := "1080p",
         status := Status.Pending }]).length = 2 ∧ (2 : Nat) ≠ 1 := by
  constructor
  · decide
  · decide

lemma dedupByIds_seen_drop {seen : List (Option String)} {v : Item}
    (h : seen.contains v.id = true) (rest : List Item) :
    dedupByIds seen (v :: rest) = dedupByIds seen rest := by
  rw [dedupByIds, if_pos h]

lemma dedupByIds_url_invariant (f : String → String) :
    ∀ (seen : List (Option String)) (videos : List Item),
      dedupByIds seen (videos.map (fun v => { v with url := f v.url })) =
        (dedupByIds seen videos).map (fun v => { v with url := f v.url }) := by
  intro seen videos
  induction videos generalizing seen with
  | nil => rfl
  | cons v rest ih =>
    show dedupByIds seen ({ v with url := f v.url } :: rest.map _) = _
    unfold dedupByIds
    by_cases h : seen.contains v.id = true
    · simp only [h, if_true, ih seen]
    · simp only [eq_false_of_ne_true h, if_false, Bool.false_eq_true]
      rw [ih (v.id :: seen)]
      rfl

/-- **C4 (amended).** `add_videos_to_gui` deduplicates by id alone, with all
absent ids identified with the single shared key `None`: an incoming item is
rejected exactly when its (optional) id already occurs among the queue's ids
or among the ids of earlier accepted items of the same batch; the item's
`sourceURL` is never consulted (rewriting every incoming URL does not change
which items are accepted).  In particular enqueuing a single item whose id
is already in the queue leaves the queue unchanged, and enqueuing
`[A(id=1), B(id=1)]` together into an empty queue yields a queue of
length 1. -/
theorem enqueue_dedup_by_id :
    (∀ (download_queue : List Item) (v : Item),
      (download_queue.map (·.id)).contains v.id = true →
      add_videos_to_gui download_queue [v] = download_queue) ∧
    ((add_videos_to_gui []
      [{ id := some "1", url := "u1", title := "A", quality := "1080p",
         status := Status.Pending },
       { id := some "1", url := "u2", title := "B", quality := "1080p",
         status := Status.Pending }]).length = 1) ∧
    (∀ (f : String → String) (seen : List (Option String)) (videos : List Item),
      dedupByIds seen (videos.map (fun v => { v with url := f v.url })) =
        (dedupByIds seen videos).map (fun v => { v with url := f v.url })) := by
  refine ⟨?_, by decide, dedupByIds_url_invariant⟩
  intro download_queue v h
  unfold add_videos_to_gui
  rw [dedupByIds_seen_drop h, dedupByIds, List.append_nil]

/-- Witness for C4 (amended): appending an item whose id `v1` is already in
the queue leaves the concrete one-item queue unchanged. -/
theorem enqueue_dedup_by_id_witness :
    add_videos_to_gui
      [{ id := some "v1", url := "u1", title := "A", quality := "1080p",
         status := Status.Pending }]
      [{ id := some "v1", url := "u2", title := "B", quality := "720p",
         status := Status.Pending }] =
      [{ id := some "v1", url := "u1", title := "A", quality := "1080p",
         status := Status.Pending }] :=
  enqueue_dedup_by_id.1 _ _ (by decide)

/-! ### Quality resolution
(`check_and_adjust_single_video_quality`, lines 1887-1951)

The probe result (`video_info['formats']`) is a list of stream descriptors;
the function collects the heights of the video-capable ones, picks the
lowest height at or above the requested tier's height (falling back to the
highest available height), and converts the chosen height back to a tier
string.  `has_audio` is also computed but only feeds a log line, so it is
omitted here. -/

/-- One entry of `video_info['formats']`: `fmt.get('vcodec')`,
`fmt.get('acodec')` and `fmt.get('height')` may each be absent. -/
structure MediaFormat where
  vcodec : Option String
  acodec : Option String
  height : Option Nat
deriving DecidableEq, Repr

/-- Python truthiness of `fmt.get('height')`: present and non-zero. -/
def truthyHeight : Option Nat → Bool
  | none => false
  | some h => h ≠ 0

/-- The `available_heights` set: heights of formats with
`fmt.get('vcodec') != 'none'` and a truthy height.  (The source collects a
Python set; only its minimum and maximum are used, so a list with possible
repetitions is an equivalent representation.) -/
def available_heights (formats : List MediaFormat) : List Nat :=
  (formats.filter (fun f => f.vcodec ≠ some "none" ∧ truthyHeight f.height)).filterMap
    (·.height)

/-- The `quality_to_height` dict with its `.get(requested_quality, 1080)`
default: every tier other than the four listed ones is treated as 1080. -/
def quality_to_height (q : String) : Nat :=
  if q = "1080p" then 1080
  else if q = "720p" then 720
  else if q = "480p" then 480
  else if q = "360p" then 360
  else 1080

/-- The height-to-tier bucketing at the end of the function. -/
def height_to_quality (best_height : Nat) : String :=
  if best_height ≥ 2160 then "Best"
  else if best_height ≥ 1440 then "Best"
  else if best_height ≥ 1080 then "1080p"
  else if best_height ≥ 720 then "720p"
  else if best_height ≥ 480 then "480p"
  else "360p"

/-- Minimum of a list of naturals (`min(suitable_heights)`); 0 on `[]`,
which the source never reaches. -/
def minList : List Nat → Nat
  | [] => 0
  | x :: xs => xs.foldl Nat.min x

/-- Maximum of a list of naturals (`max(available_heights)`); 0 on `[]`,
which the source never reaches. -/
def maxList : List Nat → Nat
  | [] => 0
  | x :: xs => xs.foldl Nat.max x

/-- `check_and_adjust_single_video_quality(video_info, requested_quality)`:
the adjusted quality string. -/
def check_and_adjust_single_video_quality (formats : List MediaFormat)
    (requested_quality : String) : String :=
  if formats.isEmpty then requested_quality
  else if requested_quality = "Best" then requested_quality
  else
    let requested_height := quality_to_height requested_quality
    let avail := available_heights formats
    if avail.isEmpty then requested_quality
    else
      let suitable_heights := avail.filter (fun h => requested_height ≤ h)
      let best_height :=
        if suitable_heights.isEmpty then maxList avail
        else minList suitable_heights
      height_to_quality best_height

lemma foldl_min_le_init (xs : List Nat) : ∀ a, xs.foldl Nat.min a ≤ a := by
  induction xs with
  | nil => intro a; exact Nat.le_refl a
  | cons x xs ih =>
    intro a
    exact Nat.le_trans (ih (Nat.min a x)) (Nat.min_le_left a x)

lemma foldl_min_le_mem (xs : List Nat) :
    ∀ a b, b ∈ xs → xs.foldl Nat.min a ≤ b := by
  induction xs with
  | nil => intro a b hb; cases hb
  | cons x xs ih =>
    intro a b hb
    rcases List.mem_cons.mp hb with hb | hb
    · subst hb
      exact Nat.le_trans (foldl_min_le_init xs (Nat.min a b)) (Nat.min_le_right a b)
    · exact ih (Nat.min a x) b hb

lemma foldl_min_mem (xs : List Nat) :
    ∀ a, xs.foldl Nat.min a = a ∨ xs.foldl Nat.min a ∈ xs := by
  induction xs with
  | nil => intro a; exact Or.inl rfl
  | cons x xs ih =>
    intro a
    rw [List.foldl_cons]
    rcases ih (Nat.min a x) with h | h
    · rw [h]
      rcases Nat.le_total a x with hax | hxa
      · exact Or.inl (Nat.min_eq_left hax)
      · have hx : Nat.min a x = x := Nat.min_eq_right hxa
        rw [hx]
        exact Or.inr (List.mem_cons_self x xs)
    · exact Or.inr (List.mem_cons_of_mem x h)

lemma minList_mem {xs : List Nat} (h : xs ≠ []) : minList xs ∈ xs := by
  cases xs with
  | nil => exact absurd rfl h
  | cons x xs =>
    show xs.foldl Nat.min x ∈ x :: xs
    rcases foldl_min_mem xs x with h' | h'
    · rw [h']; exact List.mem_cons_self x xs
    · exact List.mem_cons_of_mem x h'

lemma minList_le {xs : List Nat} {b : Nat} (hb : b ∈ xs) : minList xs ≤ b := by
  cases xs with
  | nil => cases hb
  | cons x xs =>
    rcases List.mem_cons.mp hb with h | h
    · subst h; exact foldl_min_le_init xs b
    · exact foldl_min_le_mem xs x b h

lemma init_le_foldl_max (xs : List Nat) : ∀ a, a ≤ xs.foldl Nat.max a := by
  induction xs with
  | nil => intro a; exact Nat.le_refl a
  | cons x xs ih =>
    intro a
    exact Nat.le_trans (Nat.le_max_left a x) (ih (Nat.max a x))

lemma mem_le_foldl_max (xs : List Nat) :
    ∀ a b, b ∈ xs → b ≤ xs.foldl Nat.max a := by
  induction xs with
  | nil => intro a b hb; cases hb
  | cons x xs ih =>
    intro a b hb
    rcases List.mem_cons.mp hb with hb | hb
    · subst hb
      exact Nat.le_trans (Nat.le_max_right a b) (init_le_foldl_max xs (Nat.max a b))
    · exact ih (Nat.max a x) b hb

lemma foldl_max_mem (xs : List Nat) :
    ∀ a, xs.foldl Nat.max a = a ∨ xs.foldl Nat.max a ∈ xs := by
  induction xs with
  | nil => intro a; exact Or.inl rfl
  | cons x xs ih =>
    intro a
    rw [List.foldl_cons]
    rcases ih (Nat.max a x) with h | h
    · rw [h]
      rcases Nat.le_total a x with hax | hxa
      · have hx : Nat.max a x = x := Nat.max_eq_right hax
        rw [hx]
        exact Or.inr (List.mem_cons_self x xs)
      · exact Or.inl (Nat.max_eq_left hxa)
    · exact Or.inr (List.mem_cons_of_mem x h)

lemma maxList_mem {xs : List Nat} (h : xs ≠ []) : maxList xs ∈ xs := by
  cases xs with
  | nil => exact absurd rfl h
  | cons x xs =>
    show xs.foldl Nat.max x ∈ x :: xs
    rcases foldl_max_mem xs x with h' | h'
    · rw [h']; exact List.mem_cons_self x xs
    · exact List.mem_cons_of_mem x h'

lemma le_maxList {xs : List Nat} {b : Nat} (hb : b ∈ xs) : b ≤ maxList xs := by
  cases xs with
  | nil => cases hb
  | cons x xs =>
    rcases List.mem_cons.mp hb with h | h
    · subst h; exact init_le_foldl_max xs b
    · exact mem_le_foldl_max xs x b h

/-- **C5 (corrected) counterexample.** The claim quantifies over *every*
requested video tier; but the `quality_to_height` lookup defaults every tier
outside {1080p, 720p, 480p, 360p} to height 1080.  Requesting `240p` with
available heights {360, 480} must, per the claim, resolve to the lowest
available tier ≥ 240p, i.e. `360p`; the code treats the request as height
1080, finds no height ≥ 1080, and falls back to the *highest* available
height, returning `480p`. -/
theorem resolve_240p_counterexample :
    check_and_adjust_single_video_quality
      [{ vcodec := some "vp9", acodec := some "none", height := some 360 },
       { vcodec := some "vp9", acodec := some "opus", height := some 480 }]
      "240p" = "480p" ∧
    available_heights
      [{ vcodec := some "vp9", acodec := some "none", height := some 360 },
       { vcodec := some "vp9", acodec := some "opus", height := some 480 }] =
      [360, 480] ∧
    (360 : Nat) ≥ 240 ∧ height_to_quality 360 = "360p" ∧
    ("480p" : String) ≠ "360p" := by
  exact ⟨by decide, by decide, by decide, by decide, by decide⟩

/-- **C5 (amended).** For the four requested tiers the code maps to heights
(1080p, 720p, 480p, 360p) and a non-empty set of available stream heights,
resolution picks the lowest available *height* at or above the requested
tier's height — falling back to the highest available height when none
meets it — and returns that height's tier bucket; tiers outside these four
are treated as height 1080, and `Best` is returned unchanged.  In
particular, requesting `720p` with available heights {1080, 480} resolves
to `1080p`. -/
theorem resolve_closest_above (formats : List MediaFormat) (req : String)
    (h1 : req = "1080p" ∨ req = "720p" ∨ req = "480p" ∨ req = "360p")
    (h2 : available_heights formats ≠ []) :
    (∃ m ∈ available_heights formats,
        quality_to_height req ≤ m ∧
        (∀ h ∈ available_heights formats, quality_to_height req ≤ h → m ≤ h) ∧
        check_and_adjust_single_video_quality formats req =
          height_to_quality m) ∨
    ((∀ h ∈ available_heights formats, h < quality_to_height req) ∧
      ∃ m ∈ available_heights formats,
        (∀ h ∈ available_heights formats, h ≤ m) ∧
        check_and_adjust_single_video_quality formats req =
          height_to_quality m) := by
  have hreqBest : req ≠ "Best" := by
    rcases h1 with h | h | h | h <;> (subst h; decide)
  have hformats : ¬ formats.isEmpty = true := by
    intro hf
    apply h2
    cases formats with
    | nil => rfl
    | cons f fs => simp at hf
  have havail : ¬ (available_heights formats).isEmpty = true := by
    intro hf
    exact h2 (List.isEmpty_iff.mp hf)
  unfold check_and_adjust_single_video_quality
  rw [if_neg hformats, if_neg (by simpa using hreqBest), if_neg havail]
  set A := available_heights formats with hA
  set rh := quality_to_height req with hrh
  by_cases hs : (A.filter (fun h => rh ≤ h)).isEmpty = true
  · right
    constructor
    · intro h hh
      by_contra hlt
      push_neg at hlt
      have : h ∈ A.filter (fun h => rh ≤ h) :=
        List.mem_filter.mpr ⟨hh, by simpa using hlt⟩
      rw [List.isEmpty_iff.mp hs] at this
      cases this
    · refine ⟨maxList A, maxList_mem h2, fun h hh => le_maxList hh, ?_⟩
      simp only [hs, if_true]
  · left
    have hsne : A.filter (fun h => rh ≤ h) ≠ [] := by
      intro he; exact hs (by simp [he])
    refine ⟨minList (A.filter (fun h => rh ≤ h)), ?_, ?_, ?_, ?_⟩
    · exact (List.mem_filter.mp (minList_mem hsne)).1
    · have := (List.mem_filter.mp (minList_mem hsne)).2
      simpa using this
    · intro h hh hrhh
      exact minList_le (List.mem_filter.mpr ⟨hh, by simpa using hrhh⟩)
    · simp only [hs, if_false, Bool.false_eq_true]

/-- Witness for C5 (amended): requesting `720p` against probed formats of
heights 1080 and 480 — the conclusion instantiates to the scenario and in
particular forces the result `1080p` (the lowest available height ≥ 720,
bucketed). -/
theorem resolve_closest_above_witness :
    ("720p" = "1080p" ∨ "720p" = "720p" ∨ "720p" = "480p" ∨ "720p" = "360p") ∧
    available_heights
      [{ vcodec := some "vp9", acodec := some "opus", height := some 1080 },
       { vcodec := some "avc1", acodec := some "mp4a", height := some 480 }] ≠ [] ∧
    ((∃ m ∈ available_heights
        [{ vcodec := some "vp9", acodec := some "opus", height := some 1080 },
         { vcodec := some "avc1", acodec := some "mp4a", height := some 480 }],
        quality_to_height "720p" ≤ m ∧
        (∀ h ∈ available_heights
          [{ vcodec := some "vp9", acodec := some "opus", height := some 1080 },
           { vcodec := some "avc1", acodec := some "mp4a", height := some 480 }],
          quality_to_height "720p" ≤ h → m ≤ h) ∧
        check_and_adjust_single_video_quality
          [{ vcodec := some "vp9", acodec := some "opus", height := some 1080 },
           { vcodec := some "avc1", acodec := some "mp4a", height := some 480 }]
          "720p" = height_to_quality m) ∨
      ((∀ h ∈ available_heights
          [{ vcodec := some "vp9", acodec := some "opus", height := some 1080 },
           { vcodec := some "avc1", acodec := some "mp4a", height := some 480 }],
          h < quality_to_height "720p") ∧
        ∃ m ∈ available_heights
          [{ vcodec := some "vp9", acodec := some "opus", height := some 1080 },
           { vcodec := some "avc1", acodec := some "mp4a", height := some 480 }],
          (∀ h ∈ available_heights
            [{ vcodec := some "vp9", acodec := some "opus", height := some 1080 },
             { vcodec := some "avc1", acodec := some "mp4a", height := some 480 }],
            h ≤ m) ∧
          check_and_adjust_single_video_quality
            [{ vcodec := some "vp9", acodec := some "opus", height := some 1080 },
             { vcodec := some "avc1", acodec := some "mp4a", height := some 480 }]
            "720p" = height_to_quality m)) :=
  ⟨by decide, by decide,
   resolve_closest_above _ "720p" (by decide) (by decide)⟩

/-- The C5 scenario evaluated outright: `720p` against heights {1080, 480}
resolves to `1080p`. -/
theorem resolve_720p_scenario :
    check_and_adjust_single_video_quality
      [{ vcodec := some "vp9", acodec := some "opus", height := some 1080 },
       { vcodec := some "avc1", acodec := some "mp4a", height := some 480 }]
      "720p" = "1080p" := by
  decide

/-! ### SABR (restriction) mode and the queue rewrite
(`update_queue_for_sabr_mode`, lines 3413-3437;
`deactivate_sabr_mode`, lines 3340-3363) -/

/-- `self.sabr_quality_options`: the one video tier usable under SABR. -/
def sabr_quality_options : List String := ["360p"]

/-- `self.sabr_audio_options`: the two audio profiles usable under SABR
(display strings; their format keys are the first space-separated word). -/
def sabr_audio_options : List String :=
  ["standard_mp3 (~192kbps MP3)", "high_m4a (~160kbps AAC)"]

/-- `self.original_quality_options`. -/
def original_quality_options : List String :=
  ["Best", "2160p (4K)", "1440p (2K)", "1080p", "720p", "480p", "360p",
   "240p", "144p", "Lowest"]

/-- `self.original_audio_options`. -/
def original_audio_options : List String :=
  ["default (Auto)", "best (Highest Quality)", "lowest (Smallest Size)",
   "low_webm (~48kbps Opus)", "medium_webm (~70kbps Opus)",
   "standard_webm (~128kbps Opus)", "standard_m4a (~128kbps AAC)",
   "standard_mp3 (~192kbps MP3)", "high_m4a (~160kbps AAC)"]

/-- Python `opt.split(' ')[0]`: the format key of a display option. -/
def optionKey (opt : String) : String := pySplitIndex opt ' ' 0

/-- The body of `update_queue_for_sabr_mode`'s loop for one queue item:
items that are `Done`/`Failed` are skipped; a non-audio item whose quality
is outside `sabr_quality_options` is rewritten to `360p`; an audio item
whose format key is outside the SABR audio keys is rewritten to
`Audio-standard_mp3`. -/
def sabr_update_item (v : Item) : Item :=
  if v.status = Status.Done ∨ v.status = Status.Failed then v
  else
    let original_quality := v.quality
    if ¬ startsWithStr v.quality "Audio-" ∧
        ¬ sabr_quality_options.contains original_quality then
      { v with quality := "360p" }
    else if startsWithStr v.quality "Audio-" then
      let audio_format := pyReplace v.quality "Audio-" ""
      if ¬ (sabr_audio_options.map optionKey).contains audio_format then
        { v with quality := "Audio-standard_mp3" }
      else v
    else v

/-- `update_queue_for_sabr_mode()`: the queue after SABR activation walks
it (status changes never happen there, only quality rewrites). -/
def update_queue_for_sabr_mode (download_queue : List Item) : List Item :=
  download_queue.map sabr_update_item

/-- The application state that `deactivate_sabr_mode` touches: the flag,
the two dropdown variables, and (relevant to C7) the queue, which it never
walks. -/
structure AppState where
  download_queue : List Item
  sabr_mode_active : Bool
  quality_var : String
  audio_format_var : String
deriving Repr

/-- `restore_full_quality_options()`: restores the dropdown option lists and
resets either selection that is no longer valid; the queue is untouched. -/
def restore_full_quality_options (s : AppState) : AppState :=
  let s1 :=
    if ¬ original_quality_options.contains s.quality_var then
      { s with quality_var := "1080p" }
    else s
  if ¬ original_audio_options.contains s1.audio_format_var then
    { s1 with audio_format_var := "default (Auto)" }
  else s1

/-- `deactivate_sabr_mode()`: clears the flag and restores the dropdowns
(the remaining statements only log and show/hide GUI widgets). -/
def deactivate_sabr_mode (s : AppState) : AppState :=
  restore_full_quality_options { s with sabr_mode_active := false }

/-- Is a quality SABR-compatible (left alone by the rewrite)? -/
def sabrCompatible (q : String) : Prop :=
  (¬ startsWithStr q "Audio-" = true ∧ sabr_quality_options.contains q = true) ∨
  (startsWithStr q "Audio-" = true ∧
    (sabr_audio_options.map optionKey).contains (pyReplace q "Audio-" "") = true)

instance (q : String) : Decidable (sabrCompatible q) := by
  unfold sabrCompatible
  infer_instance

/-- **C7.** On SABR activation the queue walk rewrites every `Pending`,
non-compatible item's quality to a member of the safe subset (`360p` for
video, `Audio-standard_mp3` for audio); on deactivation no queue item is
mutated — the queue, in particular every already-downgraded item, is left
unchanged. -/
theorem sabr_rewrite_and_deactivate :
    (∀ (download_queue : List Item) (v : Item), v ∈ download_queue →
      v.status = Status.Pending → ¬ sabrCompatible v.quality →
      ∃ w ∈ update_queue_for_sabr_mode download_queue,
        w.id = v.id ∧ w.url = v.url ∧ w.status = v.status ∧
        (w.quality = "360p" ∨ w.quality = "Audio-standard_mp3")) ∧
    (∀ s : AppState, (deactivate_sabr_mode s).download_queue = s.download_queue) := by
  constructor
  · intro download_queue v hv hp hnc
    refine ⟨sabr_update_item v, List.mem_map_of_mem sabr_update_item hv, ?_⟩
    have hnd : ¬ (v.status = Status.Done ∨ v.status = Status.Failed) := by
      rw [hp]; rintro (h | h) <;> cases h
    unfold sabr_update_item
    rw [if_neg hnd]
    by_cases hA : startsWithStr v.quality "Audio-" = true
    · have hkey : ¬ (sabr_audio_options.map optionKey).contains
          (pyReplace v.quality "Audio-" "") = true := by
        intro hk
        exact hnc (Or.inr ⟨hA, hk⟩)
      have hfirst : ¬ (¬ startsWithStr v.quality "Audio-" ∧
          ¬ sabr_quality_options.contains v.quality) := by
        rintro ⟨h1, _⟩
        exact h1 hA
      rw [if_neg hfirst, if_pos hA, if_pos hkey]
      exact ⟨rfl, rfl, hp ▸ rfl, Or.inr rfl⟩
    · have hq : ¬ sabr_quality_options.contains v.quality = true := by
        intro hk
        exact hnc (Or.inl ⟨by simpa using hA, hk⟩)
      have hfirst : (¬ startsWithStr v.quality "Audio-" ∧
          ¬ sabr_quality_options.contains v.quality) := ⟨by simpa using hA, by simpa using hq⟩
      rw [if_pos hfirst]
      exact ⟨rfl, rfl, hp ▸ rfl, Or.inl rfl⟩
  · intro s
    unfold deactivate_sabr_mode restore_full_quality_options
    dsimp only
    split <;> split <;> rfl

/-- Witness for C7: a concrete `Pending` item at `1080p` (not
SABR-compatible) is rewritten by the activation walk to `360p`, and
deactivation leaves a concrete queue untouched. -/
theorem sabr_rewrite_and_deactivate_witness :
    (∃ w ∈ update_queue_for_sabr_mode
        [{ id := some "v1", url := "u1", title := "A", quality := "1080p",
           status := Status.Pending }],
      w.id = some "v1" ∧ w.url = "u1" ∧ w.status = Status.Pending ∧
      (w.quality = "360p" ∨ w.quality = "Audio-standard_mp3")) ∧
    (deactivate_sabr_mode
      { download_queue :=
          [{ id := some "v1", url := "u1", title := "A", quality := "360p",
             status := Status.Pending }],
        sabr_mode_active := true, quality_var := "360p",
        audio_format_var := "standard_mp3 (~192kbps MP3)" }).download_queue =
      [{ id := some "v1", url := "u1", title := "A", quality := "360p",
         status := Status.Pending }] :=
  ⟨sabr_rewrite_and_deactivate.1 _
      { id := some "v1", url := "u1", title := "A", quality := "1080p",
        status := Status.Pending }
      (List.mem_singleton.mpr rfl) rfl (by decide),
   sabr_rewrite_and_deactivate.2 _⟩

/-! ### Persistence of the queue (`save_settings`, lines 3732-3751)

`save_settings` writes `{k: v for k, v in video.items() if k not in
['item_id', 'info']}` for every queue item: the GUI row handle and the
cached probe handle are dropped, every other field — the status included —
is written exactly as it is in memory. -/

/-- The cached probe metadata (`video['info']`, owned by the extraction
cache): its contents are irrelevant to persistence, only its presence. -/
structure ProbeInfo where
  formats : List MediaFormat
deriving DecidableEq, Repr

/-- An in-memory queue entry as `save_settings` sees it: the persisted
fields plus the two excluded keys `item_id` and `info`. -/
structure VideoDict where
  id : Option String
  url : String
  title : String
  quality : String
  duration : Option Nat
  status : Status
  item_id : String
  info : Option ProbeInfo
deriving DecidableEq, Repr

/-- One entry of the persisted `'queue'` list: every key except `item_id`
and `info`. -/
structure PersistedItem where
  id : Option String
  url : String
  title : String
  quality : String
  duration : Option Nat
  status : Status
deriving DecidableEq, Repr

/-- The dict comprehension of `save_settings` applied to one queue entry. -/
def save_settings_item (v : VideoDict) : PersistedItem :=
  { id := v.id, url := v.url, title := v.title, quality := v.quality,
    duration := v.duration, status := v.status }

/-- The persisted `'queue'` value of `save_settings`. -/
def save_settings_queue (download_queue : List VideoDict) : List PersistedItem :=
  download_queue.map save_settings_item

/-- **C8 (corrected) counterexample.**  The claim says an item whose
in-memory status is `Downloading` is persisted as `Pending`.  On the code,
`save_settings` copies the status field verbatim: a concrete `Downloading`
item is persisted with status `Downloading`, not `Pending`. -/
theorem persist_downloading_counterexample :
    (save_settings_item
      { id := some "v1", url := "u1", title := "A", quality := "1080p",
        duration := some 60, status := Status.Downloading,
        item_id := "I001", info := none }).status = Status.Downloading ∧
    Status.Downloading ≠ Status.Pending := by
  exact ⟨rfl, by decide⟩

/-- **C8 (amended).**  The persisted queue record excludes exactly the
cached probe handle (`info`) and the GUI row handle (`item_id`): the
persisted entry is insensitive to both, and every other per-item field —
including a transient `Downloading` status, which is *not* rewritten to
`Pending` — is persisted unchanged. -/
theorem persist_excludes_probe_handle :
    (∀ (v : VideoDict) (i : Option ProbeInfo) (t : String),
      save_settings_item { v with info := i, item_id := t } =
        save_settings_item v) ∧
    (∀ v : VideoDict,
      (save_settings_item v).id = v.id ∧
      (save_settings_item v).url = v.url ∧
      (save_settings_item v).title = v.title ∧
      (save_settings_item v).quality = v.quality ∧
      (save_settings_item v).duration = v.duration ∧
      (save_settings_item v).status = v.status) := by
  exact ⟨fun v i t => rfl, fun v => ⟨rfl, rfl, rfl, rfl, rfl, rfl⟩⟩

/-! ### Extraction cache and concurrency guard
(`_process_url_with_cache`, lines 1457-1497)

`cache_key = f"{url}_{quality}"`.  A caller first consults `info_cache`
(valid entries are returned, expired ones deleted), then checks
`extraction_locks`: if the key is locked it *returns immediately* — it does
not wait for, and never receives, the in-flight extraction's result;
otherwise it takes the lock and performs the extraction itself. -/

/-- What one call to `_process_url_with_cache` does before any network
work: serve from cache, proceed to extract (taking the lock), or return
because an extraction of the same key is already in progress. -/
inductive ProcessAction where
  | usedCache (videos : List Item)
  | extract
  | alreadyInProgress
deriving DecidableEq, Repr

/-- `_is_cache_valid(cache_key)`: the key has an expiry and it is still in
the future (`time.time() < self.cache_expiry[cache_key]`). -/
def is_cache_valid (cache_expiry : List (String × Nat)) (now : Nat)
    (cache_key : String) : Bool :=
  match cache_expiry.lookup cache_key with
  | some t => now < t
  | none => false

/-- The decision part of `_process_url_with_cache(url, quality)`. -/
def process_url_with_cache (info_cache : List (String × List Item))
    (cache_expiry : List (String × Nat)) (extraction_locks : List String)
    (now : Nat) (url quality : String) : ProcessAction :=
  let cache_key := url ++ "_" ++ quality
  match info_cache.lookup cache_key with
  | some videos =>
    if is_cache_valid cache_expiry now cache_key then
      ProcessAction.usedCache videos
    else
      -- the expired entry is deleted and control falls through to the lock
      if extraction_locks.contains cache_key then ProcessAction.alreadyInProgress
      else ProcessAction.extract
  | none =>
    if extraction_locks.contains cache_key then ProcessAction.alreadyInProgress
    else ProcessAction.extract

/-- **C9 (corrected) counterexample.**  The claim says the second of two
concurrent probes of the same key waits for and receives the first's
result.  On the code, with the first caller holding the lock for
`"u_1080p"` and nothing cached yet, the second call returns
`alreadyInProgress` — it performs no extraction but also receives no
videos (in particular its action is not a cache delivery). -/
theorem second_probe_no_result_counterexample :
    process_url_with_cache [] [] ["u_1080p"] 0 "u" "1080p" =
      ProcessAction.alreadyInProgress ∧
    ProcessAction.alreadyInProgress ≠ ProcessAction.usedCache [] := by
  exact ⟨by decide, by decide⟩

/-- **C9 (amended).**  The per-key lock makes the probes mutually
exclusive: a call proceeds to extraction only when the key is unlocked, so
two concurrent probe calls for the identical `(url, quality)` key perform
at most one underlying extraction — but the locked-out caller returns
immediately (`alreadyInProgress`), without waiting for or receiving the
first caller's result. -/
theorem probe_lock_mutual_exclusion (info_cache : List (String × List Item))
    (cache_expiry : List (String × Nat)) (extraction_locks : List String)
    (now : Nat) (url quality : String)
    (hlock : extraction_locks.contains (url ++ "_" ++ quality) = true) :
    (info_cache.lookup (url ++ "_" ++ quality) = none →
      process_url_with_cache info_cache cache_expiry extraction_locks now
        url quality = ProcessAction.alreadyInProgress) ∧
    process_url_with_cache info_cache cache_expiry extraction_locks now
      url quality ≠ ProcessAction.extract := by
  constructor
  · intro hnone
    unfold process_url_with_cache
    dsimp only
    rw [hnone]
    simpa using hlock
  · intro hex
    unfold process_url_with_cache at hex
    dsimp only at hex
    rcases hc : info_cache.lookup (url ++ "_" ++ quality) with _ | videos
    · rw [hc] at hex
      simp only [hlock, if_true] at hex
      exact absurd hex (by simp)
    · rw [hc] at hex
      by_cases hv : is_cache_valid cache_expiry now (url ++ "_" ++ quality) = true
      · simp only [hv, if_true] at hex
        exact absurd hex (by simp)
      · simp only [eq_false_of_ne_true hv, Bool.false_eq_true, if_false,
          hlock, if_true] at hex
        exact absurd hex (by simp)

/-- Witness for C9 (amended): the concrete locked, uncached state — the
second caller returns `alreadyInProgress` and does not extract. -/
theorem probe_lock_mutual_exclusion_witness :
    (["u_1080p"] : List String).contains ("u" ++ "_" ++ "1080p") = true ∧
    (([] : List (String × List Item)).lookup ("u" ++ "_" ++ "1080p") = none →
      process_url_with_cache [] [] ["u_1080p"] 0 "u" "1080p" =
        ProcessAction.alreadyInProgress) ∧
    process_url_with_cache [] [] ["u_1080p"] 0 "u" "1080p" ≠
      ProcessAction.extract :=
  ⟨by decide, probe_lock_mutual_exclusion [] [] ["u_1080p"] 0 "u" "1080p" (by decide)⟩

/-! ### The sequential download worker
(`start_download`, lines 2302-2338; `download_worker`, lines 2362-2627)

The worker is modelled as a small-step transition relation on an explicit
state: the live queue, the loop index, whether an item is currently being
fetched (its status has been set to `Downloading`), and whether the run has
ended.  Environment nondeterminism — the user pressing stop, the network
outcome of a fetch, the file validation result, the quality returned by the
pre-fetch probe — appears as a choice of applicable transitions.

Paths of `download_worker` and their transitions:
* loop guard fails (`stop_event` set, or index past the end) → `guardStop`,
  `guardEnd`;
* line 2379: status in `['Done','Failed','Skipped']` → `skip`;
* lines 2388-2399: set `Downloading`, optionally adjust the quality from
  `check_quality_before_download` → `beginItem`;
* line 2504-2508 (`cancelled_before_start`), lines 2572-2581 (exception
  with stop set, including the forced-timeout cancellation of line 2498),
  lines 2543-2549 (stop observed after the fetch returned) → the three
  `cancel…` transitions: revert to `Pending`, halt without advancing;
* lines 2552-2570: validation verdict → `finishValid` / `finishInvalid`;
* lines 2583-2594: classification of an error with stop not set →
  `failClassify` (which may also downgrade the quality).

The trailing revert at lines 2598-2601 is unreachable: every path that
leaves the loop has already cleared `current_downloading_video`. -/

/-- Apply `f` to the `i`-th entry of the queue (the worker always updates
the entry it is looking at; `update_video_status` finds it by its unique
GUI row id). -/
def updateAt (f : Item → Item) : List Item → Nat → List Item
  | [], _ => []
  | v :: rest, 0 => f v :: rest
  | v :: rest, n + 1 => v :: updateAt f rest n

/-- Set the status of the `i`-th queue entry (`update_video_status`). -/
def setStatus (q : List Item) (i : Nat) (st : Status) : List Item :=
  updateAt (fun v => { v with status := st }) q i

/-- The statuses the worker skips over (line 2379). -/
def skippedStatuses : List Status := [Status.Done, Status.Failed, Status.Skipped]

/-- Is the worker currently fetching (the current item's status has been
set to `Downloading`) or between items? -/
inductive Phase where
  | idle
  | fetching
deriving DecidableEq, Repr

/-- The worker state: live queue, `current_index`, phase, and whether the
run has ended. -/
structure WState where
  queue : List Item
  idx : Nat
  phase : Phase
  halted : Bool
deriving Repr

/-- One step of `download_worker`. -/
inductive WStep : WState → WState → Prop where
  | guardStop (q : List Item) (i : Nat) :
      WStep ⟨q, i, Phase.idle, false⟩ ⟨q, i, Phase.idle, true⟩
  | guardEnd (q : List Item) (i : Nat) (h : q.length ≤ i) :
      WStep ⟨q, i, Phase.idle, false⟩ ⟨q, i, Phase.idle, true⟩
  | skip (q : List Item) (i : Nat) (v : Item)
      (hv : q.get? i = some v) (hs : v.status ∈ skippedStatuses) :
      WStep ⟨q, i, Phase.idle, false⟩ ⟨q, i + 1, Phase.idle, false⟩
  | beginItem (q : List Item) (i : Nat) (v : Item) (adjusted : String)
      (hv : q.get? i = some v) (hs : v.status ∉ skippedStatuses) :
      WStep ⟨q, i, Phase.idle, false⟩
        ⟨updateAt (fun w =>
            { w with status := Status.Downloading, quality := adjusted }) q i,
          i, Phase.fetching, false⟩
  | cancelBeforeStart (q : List Item) (i : Nat) :
      WStep ⟨q, i, Phase.fetching, false⟩
        ⟨setStatus q i Status.Pending, i, Phase.idle, true⟩
  | cancelDuringError (q : List Item) (i : Nat) :
      WStep ⟨q, i, Phase.fetching, false⟩
        ⟨setStatus q i Status.Pending, i, Phase.idle, true⟩
  | cancelAfterComplete (q : List Item) (i : Nat) :
      WStep ⟨q, i, Phase.fetching, false⟩
        ⟨setStatus q i Status.Pending, i, Phase.idle, true⟩
  | finishValid (q : List Item) (i : Nat) :
      WStep ⟨q, i, Phase.fetching, false⟩
        ⟨setStatus q i Status.Done, i + 1, Phase.idle, false⟩
  | finishInvalid (q : List Item) (i : Nat) :
      WStep ⟨q, i, Phase.fetching, false⟩
        ⟨setStatus q i Status.Failed, i + 1, Phase.idle, false⟩
  | failClassify (q : List Item) (i : Nat) (err : String) :
      WStep ⟨q, i, Phase.fetching, false⟩
        ⟨updateAt (fun w =>
            { w with status := (classify_download_error err w.quality).1,
                     quality := (classify_download_error err w.quality).2 }) q i,
          i + 1, Phase.idle, false⟩

/-- Reachability along worker steps. -/
inductive Reach : WState → WState → Prop where
  | refl (s : WState) : Reach s s
  | tail {s t u : WState} : Reach s t → WStep t u → Reach s u

/-- No queue entry has status `Downloading`. -/
def noDownloading (q : List Item) : Prop :=
  ∀ i v, q.get? i = some v → v.status ≠ Status.Downloading

/-- Every `Downloading` entry is at position `i`. -/
def onlyDownloadingAt (q : List Item) (i : Nat) : Prop :=
  ∀ j v, q.get? j = some v → v.status = Status.Downloading → j = i

/-- The number of `Downloading` entries. -/
def dCount (q : List Item) : Nat :=
  (q.filter (fun v => v.status = Status.Downloading)).length

/-- The worker invariant: between items nothing is `Downloading`; during a
fetch only the current item may be; a halted worker is between items. -/
def WInv (s : WState) : Prop :=
  (s.phase = Phase.idle → noDownloading s.queue) ∧
  (s.phase = Phase.fetching → onlyDownloadingAt s.queue s.idx) ∧
  (s.halted = true → s.phase = Phase.idle)

lemma updateAt_get?_ne (f : Item → Item) :
    ∀ (q : List Item) (i j : Nat), j ≠ i → (updateAt f q i).get? j = q.get? j := by
  intro q
  induction q with
  | nil => intro i j _; rfl
  | cons v rest ih =>
    intro i j hne
    cases i with
    | zero =>
      cases j with
      | zero => exact absurd rfl hne
      | succ k => rfl
    | succ n =>
      cases j with
      | zero => rfl
      | succ k =>
        show (updateAt f rest n).get? k = rest.get? k
        exact ih n k (fun he => hne (by rw [he]))

lemma updateAt_get?_eq (f : Item → Item) :
    ∀ (q : List Item) (i : Nat), (updateAt f q i).get? i = (q.get? i).map f := by
  intro q
  induction q with
  | nil => intro i; rfl
  | cons v rest ih =>
    intro i
    cases i with
    | zero => rfl
    | succ n => exact ih n

lemma classify_not_downloading (e q : String) :
    (classify_download_error e q).1 ≠ Status.Downloading := by
  unfold classify_download_error
  dsimp only
  by_cases h1 : detects403 (lowerStr e) = true
  · simp only [h1, if_true]
    cases hq : auto_retry_with_different_quality q <;> simp
  · simp only [eq_false_of_ne_true h1, Bool.false_eq_true, if_false]
    split_ifs <;> simp

lemma noDownloading_update {q : List Item} {i : Nat} {f : Item → Item}
    (hq : ∀ j v, j ≠ i → q.get? j = some v → v.status ≠ Status.Downloading)
    (hf : ∀ v, (f v).status ≠ Status.Downloading) :
    noDownloading (updateAt f q i) := by
  intro j w hw
  by_cases hji : j = i
  · subst hji
    rw [updateAt_get?_eq] at hw
    rcases hv : q.get? j with _ | v
    · rw [hv] at hw; cases hw
    · rw [hv] at hw
      have hfw : f v = w := by simpa using hw
      rw [← hfw]
      exact hf v
  · rw [updateAt_get?_ne _ _ _ _ hji] at hw
    exact hq j w hji hw

/-- One worker step preserves the invariant. -/
lemma winv_step {s t : WState} (h : WInv s) (hst : WStep s t) : WInv t := by
  obtain ⟨hidle, hfetch, hhalt⟩ := h
  cases hst with
  | guardStop q i =>
    refine ⟨fun _ => hidle rfl, fun hc => ?_, fun _ => rfl⟩
    exact absurd hc (by intro hc'; exact Phase.noConfusion hc')
  | guardEnd q i hlen =>
    refine ⟨fun _ => hidle rfl, fun hc => ?_, fun _ => rfl⟩
    exact absurd hc (by intro hc'; exact Phase.noConfusion hc')
  | skip q i v hv hs =>
    refine ⟨fun _ => hidle rfl, fun hc => ?_, fun hc => ?_⟩
    · exact absurd hc (by intro hc'; exact Phase.noConfusion hc')
    · exact absurd hc (by intro hc'; exact Bool.noConfusion hc')
  | beginItem q i v adjusted hv hs =>
    refine ⟨fun hc => ?_, fun _ => ?_, fun hc => ?_⟩
    · exact absurd hc (by intro hc'; exact Phase.noConfusion hc')
    · intro j w hw hd
      by_contra hne
      rw [updateAt_get?_ne _ _ _ _ hne] at hw
      exact absurd hd (hidle rfl j w hw)
    · exact absurd hc (by intro hc'; exact Bool.noConfusion hc')
  | cancelBeforeStart q i =>
    refine ⟨fun _ => ?_, fun hc => ?_, fun _ => rfl⟩
    · exact noDownloading_update
        (fun j v hj hv hd => absurd (hfetch rfl j v hv hd) hj)
        (fun v => by simp)
    · exact absurd hc (by intro hc'; exact Phase.noConfusion hc')
  | cancelDuringError q i =>
    refine ⟨fun _ => ?_, fun hc => ?_, fun _ => rfl⟩
    · exact noDownloading_update
        (fun j v hj hv hd => absurd (hfetch rfl j v hv hd) hj)
        (fun v => by simp)
    · exact absurd hc (by intro hc'; exact Phase.noConfusion hc')
  | cancelAfterComplete q i =>
    refine ⟨fun _ => ?_, fun hc => ?_, fun _ => rfl⟩
    · exact noDownloading_update
        (fun j v hj hv hd => absurd (hfetch rfl j v hv hd) hj)
        (fun v => by simp)
    · exact absurd hc (by intro hc'; exact Phase.noConfusion hc')
  | finishValid q i =>
    refine ⟨fun _ => ?_, fun hc => ?_, fun hc => ?_⟩
    · exact noDownloading_update
        (fun j v hj hv hd => absurd (hfetch rfl j v hv hd) hj)
        (fun v => by simp)
    · exact absurd hc (by intro hc'; exact Phase.noConfusion hc')
    · exact absurd hc (by intro hc'; exact Bool.noConfusion hc')
  | finishInvalid q i =>
    refine ⟨fun _ => ?_, fun hc => ?_, fun hc => ?_⟩
    · exact noDownloading_update
        (fun j v hj hv hd => absurd (hfetch rfl j v hv hd) hj)
        (fun v => by simp)
    · exact absurd hc (by intro hc'; exact Phase.noConfusion hc')
    · exact absurd hc (by intro hc'; exact Bool.noConfusion hc')
  | failClassify q i err =>
    refine ⟨fun _ => ?_, fun hc => ?_, fun hc => ?_⟩
    · exact noDownloading_update
        (fun j v hj hv hd => absurd (hfetch rfl j v hv hd) hj)
        (fun v => classify_not_downloading err v.quality)
    · exact absurd hc (by intro hc'; exact Phase.noConfusion hc')
    · exact absurd hc (by intro hc'; exact Bool.noConfusion hc')

lemma winv_reach {s0 s : WState} (h0 : WInv s0) (hr : Reach s0 s) : WInv s := by
  induction hr with
  | refl => exact h0
  | tail _ hstep ih => exact winv_step ih hstep

lemma noDownloading_cons {v : Item} {rest : List Item}
    (h : noDownloading (v :: rest)) :
    v.status ≠ Status.Downloading ∧ noDownloading rest := by
  refine ⟨h 0 v rfl, fun j w hw => h (j + 1) w ?_⟩
  simpa using hw

lemma dCount_zero_of_noDownloading :
    ∀ {q : List Item}, noDownloading q → dCount q = 0 := by
  intro q
  induction q with
  | nil => intro _; rfl
  | cons v rest ih =>
    intro h
    obtain ⟨hv, hrest⟩ := noDownloading_cons h
    unfold dCount
    rw [List.filter_cons_of_neg (by simpa using hv)]
    exact ih hrest

lemma onlyDownloadingAt_cons {v : Item} {rest : List Item} {n : Nat}
    (h : onlyDownloadingAt (v :: rest) (n + 1)) : onlyDownloadingAt rest n := by
  intro j w hw hd
  have := h (j + 1) w (by simpa using hw) hd
  omega

lemma dCount_le_one_of_onlyAt :
    ∀ (q : List Item) (i : Nat), onlyDownloadingAt q i → dCount q ≤ 1 := by
  intro q
  induction q with
  | nil => intro i _; exact Nat.zero_le 1
  | cons v rest ih =>
    intro i h
    by_cases hv : v.status = Status.Downloading
    · have hi : i = 0 := (h 0 v rfl hv).symm
      subst hi
      have hrest : noDownloading rest := by
        intro j w hw hd
        have := h (j + 1) w (by simpa using hw) hd
        omega
      unfold dCount
      rw [List.filter_cons_of_pos (by simpa using hv)]
      have : dCount rest = 0 := dCount_zero_of_noDownloading hrest
      unfold dCount at this
      simp [this]
    · have hstep : dCount (v :: rest) = dCount rest := by
        unfold dCount
        rw [List.filter_cons_of_neg (by simpa using hv)]
      rw [hstep]
      cases i with
      | zero =>
        have hrest : noDownloading rest := by
          intro j w hw hd
          have := h (j + 1) w (by simpa using hw) hd
          omega
        rw [dCount_zero_of_noDownloading hrest]
        exact Nat.zero_le 1
      | succ n => exact ih n (onlyDownloadingAt_cons h)

lemma noDownloading_iff_all (q : List Item) :
    noDownloading q ↔ ∀ v ∈ q, v.status ≠ Status.Downloading := by
  constructor
  · intro h v hv
    rcases List.mem_iff_get?.mp hv with ⟨n, hn⟩
    exact h n v hn
  · intro h i v hv
    exact h v (List.get?_mem hv)

/-- **C1.** During a run started between items with nothing `Downloading`
(the state `start_download` hands to the fresh worker), at most one queue
item has status `Downloading` at every reachable instant: every transition
out of a fetch moves the current item to `Done`, `Failed`,
`QualityBlocked`, `AgeRestricted` or `Pending` before any other item can be
transitioned to `Downloading`. -/
theorem single_downloading_invariant (s0 s : WState)
    (h0 : s0.phase = Phase.idle) (hq : noDownloading s0.queue)
    (hr : Reach s0 s) : dCount s.queue ≤ 1 := by
  have hinv0 : WInv s0 := by
    refine ⟨fun _ => hq, fun hc => ?_, fun _ => h0⟩
    rw [h0] at hc
    exact absurd hc (by intro hc'; exact Phase.noConfusion hc')
  have hinv : WInv s := winv_reach hinv0 hr
  cases hp : s.phase with
  | idle =>
    rw [dCount_zero_of_noDownloading (hinv.1 hp)]
    exact Nat.zero_le 1
  | fetching =>
    exact dCount_le_one_of_onlyAt s.queue s.idx (hinv.2.1 hp)

/-- Witness for C1: a one-item queue, one `beginItem` step into the fetch —
the reached state has at most one `Downloading` item. -/
theorem single_downloading_invariant_witness :
    dCount (WState.mk
      [{ id := some "v1", url := "u1", title := "A", quality := "1080p",
         status := Status.Pending }] 0 Phase.idle false).queue = 0 ∧
    dCount (WState.mk
      [{ id := some "v1", url := "u1", title := "A", quality := "1080p",
         status := Status.Downloading }] 0 Phase.fetching false).queue ≤ 1 :=
  ⟨by decide,
   single_downloading_invariant
     (WState.mk
       [{ id := some "v1", url := "u1", title := "A", quality := "1080p",
          status := Status.Pending }] 0 Phase.idle false)
     (WState.mk
       [{ id := some "v1", url := "u1", title := "A", quality := "1080p",
          status := Status.Downloading }] 0 Phase.fetching false)
     rfl
     ((noDownloading_iff_all _).mpr (by decide))
     (Reach.tail (Reach.refl _)
       (WStep.beginItem _ 0
         { id := some "v1", url := "u1", title := "A", quality := "1080p",
           status := Status.Pending } "1080p" rfl (by decide)))⟩

/-- **C3.** After the cancellation signal is observed the run halts without
advancing: every halting step out of a fetch reverts the current item to
`Pending` and keeps the index; and in any halted state reachable from a
clean start no queue item remains `Downloading` — every item ends the run
in `Pending`, `Done`, or an item-terminal status. -/
theorem stop_reverts_to_pending (s0 s : WState)
    (h0 : s0.phase = Phase.idle) (hq : noDownloading s0.queue)
    (hr : Reach s0 s) (hh : s.halted = true) :
    (∀ v ∈ s.queue, v.status ≠ Status.Downloading) ∧
    (∀ (q : List Item) (i : Nat) (t : WState),
      WStep ⟨q, i, Phase.fetching, false⟩ t → t.halted = true →
      t.queue = setStatus q i Status.Pending ∧ t.idx = i) := by
  constructor
  · have hinv0 : WInv s0 := by
      refine ⟨fun _ => hq, fun hc => ?_, fun _ => h0⟩
      rw [h0] at hc
      exact absurd hc (by intro hc'; exact Phase.noConfusion hc')
    have hinv : WInv s := winv_reach hinv0 hr
    exact (noDownloading_iff_all s.queue).mp (hinv.1 (hinv.2.2 hh))
  · intro q i t hstep hht
    cases hstep with
    | cancelBeforeStart _ _ => exact ⟨rfl, rfl⟩
    | cancelDuringError _ _ => exact ⟨rfl, rfl⟩
    | cancelAfterComplete _ _ => exact ⟨rfl, rfl⟩
    | finishValid _ _ => exact absurd hht (by intro hc; exact Bool.noConfusion hc)
    | finishInvalid _ _ => exact absurd hht (by intro hc; exact Bool.noConfusion hc)
    | failClassify _ _ _ => exact absurd hht (by intro hc; exact Bool.noConfusion hc)

/-- Witness for C3: the run `begin fetch → cancel` on a one-item queue —
the reach and the halted flag are exhibited concretely, and the theorem
yields that the (reverted, `Pending`) item is not `Downloading`. -/
theorem stop_reverts_to_pending_witness :
    Reach
      (WState.mk
        [{ id := some "v1", url := "u1", title := "A", quality := "1080p",
           status := Status.Pending }] 0 Phase.idle false)
      (WState.mk
        [{ id := some "v1", url := "u1", title := "A", quality := "1080p",
           status := Status.Pending }] 0 Phase.idle true) ∧
    ({ id := some "v1", url := "u1", title := "A", quality := "1080p",
       status := Status.Pending } : Item).status ≠ Status.Downloading := by
  have htrace : Reach
      (WState.mk
        [{ id := some "v1", url := "u1", title := "A", quality := "1080p",
           status := Status.Pending }] 0 Phase.idle false)
      (WState.mk
        [{ id := some "v1", url := "u1", title := "A", quality := "1080p",
           status := Status.Pending }] 0 Phase.idle true) :=
    Reach.tail
      (Reach.tail (Reach.refl _)
        (WStep.beginItem _ 0
          { id := some "v1", url := "u1", title := "A", quality := "1080p",
            status := Status.Pending } "1080p" rfl (by decide)))
      (WStep.cancelBeforeStart _ 0)
  refine ⟨htrace, ?_⟩
  exact (stop_reverts_to_pending _ _ rfl
      ((noDownloading_iff_all _).mpr (by decide)) htrace rfl).1
    { id := some "v1", url := "u1", title := "A", quality := "1080p",
      status := Status.Pending }
    (by decide)

/-! ### Starting a run (`start_download`, lines 2302-2338) -/

/-- The three early-return guards of `start_download`: empty queue, no
`Pending` item, or a run already in progress; the result says whether a
worker run begins. -/
def start_download (download_queue : List Item) (is_downloading : Bool) : Bool :=
  if download_queue.isEmpty then false
  else if (download_queue.filter (fun v => v.status = Status.Pending)).isEmpty then
    false
  else if is_downloading then false
  else true

/-- **C10.** The worker skips exactly the items whose status is `Done`,
`Failed` or `Skipped`: an item left `QualityBlocked` or `AgeRestricted` by
a previous run is not skipped — the `beginItem` transition to `Downloading`
applies to it and the `skip` transition does not — so it is re-attempted
without `resetItems`; while `start_download` itself begins a run only when
at least one item is `Pending`. -/
lemma wstep_idle_advance {q : List Item} {i : Nat} {t : WState}
    (h : WStep ⟨q, i, Phase.idle, false⟩ t) (ht : t.phase = Phase.idle)
    (hh : t.halted = false) :
    ∃ v, q.get? i = some v ∧ v.status ∈ skippedStatuses ∧
      t = ⟨q, i + 1, Phase.idle, false⟩ := by
  cases h with
  | guardStop _ _ => exact absurd hh (by intro hc; exact Bool.noConfusion hc)
  | guardEnd _ _ _ => exact absurd hh (by intro hc; exact Bool.noConfusion hc)
  | skip _ _ v hv hs => exact ⟨v, hv, hs, rfl⟩
  | beginItem _ _ v adjusted hv hs =>
    exact absurd ht (by intro hc; exact Phase.noConfusion hc)

theorem blocked_items_reattempted :
    (∀ (q : List Item) (i : Nat) (v : Item),
      q.get? i = some v →
      v.status = Status.QualityBlocked ∨ v.status = Status.AgeRestricted →
      WStep ⟨q, i, Phase.idle, false⟩
          ⟨updateAt (fun w =>
              { w with status := Status.Downloading, quality := v.quality }) q i,
            i, Phase.fetching, false⟩ ∧
        ¬ WStep ⟨q, i, Phase.idle, false⟩ ⟨q, i + 1, Phase.idle, false⟩) ∧
    (∀ (download_queue : List Item) (d : Bool),
      start_download download_queue d = true →
      ∃ v ∈ download_queue, v.status = Status.Pending) ∧
    (∀ (download_queue : List Item) (d : Bool),
      (∀ v ∈ download_queue, v.status ≠ Status.Pending) →
      start_download download_queue d = false) := by
  refine ⟨?_, ?_, ?_⟩
  · intro q i v hv hb
    have hns : v.status ∉ skippedStatuses := by
      rcases hb with h | h <;> (rw [h]; decide)
    constructor
    · exact WStep.beginItem q i v v.quality hv hns
    · intro hstep
      obtain ⟨v', hv', hs', -⟩ := wstep_idle_advance hstep rfl rfl
      have hvv : v = v' := Option.some.inj (hv.symm.trans hv')
      rw [← hvv] at hs'
      exact hns hs'
  · intro download_queue d h
    unfold start_download at h
    by_cases h1 : download_queue.isEmpty = true
    · rw [if_pos h1] at h
      exact absurd h (by simp)
    · rw [if_neg h1] at h
      by_cases h2 : (download_queue.filter
          (fun v => v.status = Status.Pending)).isEmpty = true
      · rw [if_pos h2] at h
        exact absurd h (by simp)
      · rcases hq : download_queue.filter (fun v => v.status = Status.Pending) with
          _ | ⟨v, rest⟩
        · rw [hq] at h2
          simp at h2
        · have hvmem : v ∈ download_queue.filter
              (fun v => v.status = Status.Pending) := by
            rw [hq]
            exact List.mem_cons_self _ _
          have hsplit := List.mem_filter.mp hvmem
          exact ⟨v, hsplit.1, by simpa using hsplit.2⟩
  · intro download_queue d h
    unfold start_download
    by_cases h1 : download_queue.isEmpty = true
    · rw [if_pos h1]
    · rw [if_neg h1]
      have h2 : (download_queue.filter
          (fun v => v.status = Status.Pending)).isEmpty = true := by
        have hnil : download_queue.filter (fun v => v.status = Status.Pending) = [] :=
          List.filter_eq_nil_iff.mpr (fun a ha => by simpa using h a ha)
        rw [hnil]
        rfl
      rw [if_pos h2]

/-- Witness for C10: a concrete `QualityBlocked` item at index 0 is
re-attempted (the `Downloading` transition applies, the skip transition
does not), and a concrete queue with one `Pending` item admits a run
containing a `Pending` item. -/
theorem blocked_items_reattempted_witness :
    (WStep
        (WState.mk
          [{ id := some "v1", url := "u1", title := "A", quality := "1080p",
             status := Status.QualityBlocked }] 0 Phase.idle false)
        (WState.mk
          [{ id := some "v1", url := "u1", title := "A", quality := "1080p",
             status := Status.Downloading }] 0 Phase.fetching false) ∧
      ¬ WStep
        (WState.mk
          [{ id := some "v1", url := "u1", title := "A", quality := "1080p",
             status := Status.QualityBlocked }] 0 Phase.idle false)
        (WState.mk
          [{ id := some "v1", url := "u1", title := "A", quality := "1080p",
             status := Status.QualityBlocked }] 1 Phase.idle false)) ∧
    (∃ v ∈ ([{ id := some "v1", url := "u1", title := "A",
               quality := "1080p", status := Status.Pending }] : List Item),
      v.status = Status.Pending) :=
  ⟨blocked_items_reattempted.1
      [{ id := some "v1", url := "u1", title := "A", quality := "1080p",
         status := Status.QualityBlocked }] 0
      { id := some "v1", url := "u1", title := "A", quality := "1080p",
        status := Status.QualityBlocked } rfl (Or.inl rfl),
   blocked_items_reattempted.2.1
      [{ id := some "v1", url := "u1", title := "A", quality := "1080p",
         status := Status.Pending }] false (by decide)⟩

end YTD
